import Mathlib

/-!
Verification of the light/shadow classification engine of the
`luz-sombra-next.js` repository.

The embedding covers the classifiers the claims are about:

* the region-level heuristic classifier of
  `src/services/tensorflowService.ts` (the `classifyImagePixels`
  variant with `regionSize = 20` and the weighted light score), its
  classification map, pixel counts, percentages and overlay rendering;
* the pixel-level rule-based four-class classifier of the service
  version kept as `src/unnamed/part_004` (`classifyImagePixels` there),
  together with the labelling rule of its training-data generator;
* the service's initialization state machine (`isModelLoaded`,
  `isInitializing`, `isTraining` flags, `initialize` / `createModel` /
  `trainModel`).

JavaScript numbers are modelled by `ℚ`.  All quantities compared against
the thresholds are ratios of small integers (channel bytes in `[0,255]`,
sums over a 20×20 region divided by 400, 3 or 255), whose distance to
the decimal thresholds (0.52, 0.8, 0.6, 0.3, 0.15, …) is far larger
than any IEEE-754 double rounding error, so the rational comparisons
agree with the floating-point ones on every byte-valued image.  The one
intentional divergence: JavaScript produces `NaN` for `0/0` (all
comparisons with `NaN` are false, and `NaN ≠ 100`), while `ℚ` yields
`0 / 0 = 0`; in every place this occurs (the color-balance ratio of an
all-zero region, the percentages of an image with no processed region)
both semantics take the same branch or falsify the same equation, as
noted at the definition.
-/

set_option maxRecDepth 4000

namespace LuzSombra

/-- A decoded image as the engine receives it: width, height, and the
flat row-major RGBA byte buffer, modelled as a function from the flat
byte index (`(y * width + x) * 4 + channel`) to the byte value. -/
structure ImageData where
  width : ℕ
  height : ℕ
  data : ℕ → ℕ

/-- A valid image buffer: positive dimensions and every byte of the
`width*height*4` buffer in `[0, 255]`. -/
abbrev ImageData.Valid (img : ImageData) : Prop :=
  0 < img.width ∧ 0 < img.height ∧
    ∀ i < img.width * img.height * 4, img.data i ≤ 255

/-- Flat byte index of the red channel of pixel `(x, y)`:
`(y * width + x) * 4`, as used throughout the source. -/
def pixIdx (img : ImageData) (x y : ℕ) : ℕ :=
  (y * img.width + x) * 4

namespace Heuristic

/-!
The region-level heuristic classifier
(`src/services/tensorflowService.ts`, `classifyImagePixels` of the
"super-efficient heuristic" service version, lines 565–681).
-/

/-- `const regionSize = 20` (tensorflowService.ts line 584). -/
def regionSize : ℕ := 20

/-- The values taken by the loop variable of
`for (let v = 0; v < dim - regionSize; v += regionSize)`
(tensorflowService.ts lines 586–587): the multiples `20 * k` with
`20 * k < dim - 20`; the count of iterations is
`⌈(dim - 20) / 20⌉ = (dim - 20 + 19) / 20` (truncated `ℕ` subtraction
agrees with the JavaScript comparison, which is false for
`dim ≤ 20`). -/
def regionStarts (dim : ℕ) : List ℕ :=
  (List.range ((dim - regionSize + regionSize - 1) / regionSize)).map
    (fun k => k * regionSize)

/-- The `(dy, dx)` offsets of the two nested region loops
`for (let dy = 0; dy < regionSize; dy++) for (let dx = 0; dx < regionSize; dx++)`. -/
def regionOffsets : List (ℕ × ℕ) :=
  (List.range regionSize).flatMap
    (fun dy => (List.range regionSize).map (fun dx => (dy, dx)))

/-- `totalR` accumulated over the region at `(x, y)`
(tensorflowService.ts lines 595–605). -/
def totalR (img : ImageData) (x y : ℕ) : ℕ :=
  (regionOffsets.map
    (fun p => img.data (pixIdx img (x + p.2) (y + p.1)))).sum

/-- `totalG` accumulated over the region at `(x, y)`. -/
def totalG (img : ImageData) (x y : ℕ) : ℕ :=
  (regionOffsets.map
    (fun p => img.data (pixIdx img (x + p.2) (y + p.1) + 1))).sum

/-- `totalB` accumulated over the region at `(x, y)`. -/
def totalB (img : ImageData) (x y : ℕ) : ℕ :=
  (regionOffsets.map
    (fun p => img.data (pixIdx img (x + p.2) (y + p.1) + 2))).sum

/-- `pixelCount`: one increment per offset of the double loop, i.e.
`regionSize * regionSize = 400`. -/
def pixelCount : ℕ := regionSize * regionSize

/-- The byte sum `r + g + b` of the pixel at offset `p = (dy, dx)` of
the region at `(x, y)` — the numerator of the per-pixel brightness of
tensorflowService.ts line 608. -/
def brightNat (img : ImageData) (x y : ℕ) (p : ℕ × ℕ) : ℕ :=
  img.data (pixIdx img (x + p.2) (y + p.1))
    + img.data (pixIdx img (x + p.2) (y + p.1) + 1)
    + img.data (pixIdx img (x + p.2) (y + p.1) + 2)

/-- The per-pixel brightness values `(r + g + b) / 3` of the region at
`(x, y)`, in loop order (tensorflowService.ts line 608). -/
def brightnessList (img : ImageData) (x y : ℕ) : List ℚ :=
  regionOffsets.map (fun p => (brightNat img x y p : ℚ) / 3)

/-- `minBrightness`, initialized to 255 and folded with `Math.min`
over the region's brightness values (lines 591, 609). -/
def minBrightness (img : ImageData) (x y : ℕ) : ℚ :=
  (brightnessList img x y).foldl min 255

/-- `maxBrightness`, initialized to 0 and folded with `Math.max`
over the region's brightness values (lines 592, 610). -/
def maxBrightness (img : ImageData) (x y : ℕ) : ℚ :=
  (brightnessList img x y).foldl max 0

/-- `avgR = totalR / pixelCount` (line 615). -/
def avgR (img : ImageData) (x y : ℕ) : ℚ := (totalR img x y : ℚ) / pixelCount

/-- `avgG = totalG / pixelCount` (line 616). -/
def avgG (img : ImageData) (x y : ℕ) : ℚ := (totalG img x y : ℚ) / pixelCount

/-- `avgB = totalB / pixelCount` (line 617). -/
def avgB (img : ImageData) (x y : ℕ) : ℚ := (totalB img x y : ℚ) / pixelCount

/-- `avgBrightness = (avgR + avgG + avgB) / 3` (line 618). -/
def avgBrightness (img : ImageData) (x y : ℕ) : ℚ :=
  (avgR img x y + avgG img x y + avgB img x y) / 3

/-- `contrast = (maxBrightness - minBrightness) / 255` (line 619). -/
def contrast (img : ImageData) (x y : ℕ) : ℚ :=
  (maxBrightness img x y - minBrightness img x y) / 255

/-- `colorBalance = Math.min(avgR, avgG, avgB) / Math.max(avgR, avgG, avgB)`
(line 630).  For an all-zero region this is `0 / 0`: `NaN` in
JavaScript, `0` in `ℚ`; both fail the `> 0.8` and `> 0.6` tests. -/
def colorBalance (img : ImageData) (x y : ℕ) : ℚ :=
  min (min (avgR img x y) (avgG img x y)) (avgB img x y)
    / max (max (avgR img x y) (avgG img x y)) (avgB img x y)

/-- `maxColor = Math.max(avgR, avgG, avgB)` (line 639). -/
def maxColor (img : ImageData) (x y : ℕ) : ℚ :=
  max (max (avgR img x y) (avgG img x y)) (avgB img x y)

/-- `lightScore`, accumulated by the four sequential `if`/`else if`
criteria of tensorflowService.ts lines 622–641. -/
def lightScore (img : ImageData) (x y : ℕ) : ℕ :=
  (if 180 < avgBrightness img x y then 40
   else if 120 < avgBrightness img x y then 20
   else if 80 < avgBrightness img x y then 10 else 0)
  + (if (0.8 : ℚ) < colorBalance img x y then 30
     else if (0.6 : ℚ) < colorBalance img x y then 15 else 0)
  + (if (0.3 : ℚ) < contrast img x y then 20
     else if (0.15 : ℚ) < contrast img x y then 10 else 0)
  + (if 200 < maxColor img x y then 10
     else if 150 < maxColor img x y then 5 else 0)

/-- `const classification = lightScore >= 50 ? 0 : 1;  // 0 = light, 1 = shadow`
(line 644). -/
def classifyRegion (img : ImageData) (x y : ℕ) : ℕ :=
  if 50 ≤ lightScore img x y then 0 else 1

/-- The region origins `(x, y)` in processing order: outer loop over
`y`, inner loop over `x` (lines 586–587). -/
def allRegions (img : ImageData) : List (ℕ × ℕ) :=
  (regionStarts img.height).flatMap
    (fun y => (regionStarts img.width).map (fun x => (x, y)))

/-- One region's writes into the classification map: the double loop of
lines 647–660 stores `classification` at every `(pixelY, pixelX)` with
`pixelY = y + dy`, `pixelX = x + dx`, `dy, dx < regionSize`, guarded by
`pixelY < height && pixelX < width`. -/
def writeRegion (img : ImageData) (m : ℕ → ℕ → Option ℕ) (pos : ℕ × ℕ) :
    ℕ → ℕ → Option ℕ :=
  fun py px =>
    if pos.2 ≤ py ∧ py < pos.2 + regionSize ∧ pos.1 ≤ px ∧ px < pos.1 + regionSize
        ∧ py < img.height ∧ px < img.width
    then some (classifyRegion img pos.1 pos.2)
    else m py px

/-- The classification map after all regions are processed; rows are
created empty (line 580), so positions no region writes to stay
unset (`none`). -/
def classificationMap (img : ImageData) : ℕ → ℕ → Option ℕ :=
  (allRegions img).foldl (writeRegion img) (fun _ _ => none)

/-- The number of in-bounds pixels of the region at `pos`: one count
per `(dy, dx)` passing the `pixelY < height && pixelX < width` guard
of the write loop. -/
def regionCoveredCount (img : ImageData) (pos : ℕ × ℕ) : ℕ :=
  (regionOffsets.filter
    (fun p => decide (pos.2 + p.1 < img.height ∧ pos.1 + p.2 < img.width))).length

/-- `lightPixels`: incremented once per written pixel of a region whose
classification is 0 (lines 652–655). -/
def lightPixels (img : ImageData) : ℕ :=
  ((allRegions img).map
    (fun pos => if classifyRegion img pos.1 pos.2 = 0
                then regionCoveredCount img pos else 0)).sum

/-- `shadowPixels`: incremented once per written pixel of a region whose
classification is not 0 (lines 656–657). -/
def shadowPixels (img : ImageData) : ℕ :=
  ((allRegions img).map
    (fun pos => if classifyRegion img pos.1 pos.2 = 0
                then 0 else regionCoveredCount img pos)).sum

/-- `const totalPixels = lightPixels + shadowPixels` (line 664). -/
def totalPixels (img : ImageData) : ℕ := lightPixels img + shadowPixels img

/-- `lightPercentage = (lightPixels / totalPixels) * 100` (line 665).
When no region is processed this is `(0 / 0) * 100`: `NaN` in
JavaScript, `0` in `ℚ`. -/
def lightPercentage (img : ImageData) : ℚ :=
  ((lightPixels img : ℚ) / totalPixels img) * 100

/-- `shadowPercentage = (shadowPixels / totalPixels) * 100` (line 666). -/
def shadowPercentage (img : ImageData) : ℚ :=
  ((shadowPixels img : ℚ) / totalPixels img) * 100

/-- One output pixel of the overlay renderers
(`createProcessedImageBrowser` lines 712–731 and
`createProcessedImageNode` lines 756–776, identical loop bodies):
`classification = classificationMap[y]?.[x] || 0` coerces a missing
entry to 0, then label 1 is painted `(0,255,0,255)` (the branch whose
comment reads "Light area - green") and anything else
`(0,0,255,255)` ("Shadow area - blue"). -/
def overlayPixel (m : ℕ → ℕ → Option ℕ) (y x : ℕ) : ℕ × ℕ × ℕ × ℕ :=
  if (m y x).getD 0 = 1 then (0, 255, 0, 255) else (0, 0, 255, 255)

/-- The overlay of an image under the heuristic classifier. -/
def overlay (img : ImageData) (y x : ℕ) : ℕ × ℕ × ℕ × ℕ :=
  overlayPixel (classificationMap img) y x

end Heuristic

namespace RuleBased

/-!
The pixel-level rule-based four-class classifier of the service version
kept as `src/unnamed/part_004` (`classifyImagePixels`, lines 236–308),
and the labelling rule of its training-data generator
(`generateTrainingData`, lines 131–194).
-/

/-- `const intensity = (r + g + b) / 3.0` (part_004 line 253). -/
def intensity (r g b : ℕ) : ℚ := ((r + g + b : ℕ) : ℚ) / 3

/-- `const denominator = r + b; const greenRatio = denominator === 0 ? 0 : g / denominator`
(part_004 lines 254–255): an explicit zero-denominator guard, not the
`+ 1` offset used by the training-data generator. -/
def greenRatio (r g b : ℕ) : ℚ :=
  if r + b = 0 then 0 else (g : ℚ) / ((r + b : ℕ) : ℚ)

/-- The rule ladder of part_004 lines 262–270, with
`SUELO_INTENSITY_THRESHOLD = 120.0` and `SUELO_GREEN_THRESHOLD = 0.52`:
0 = SUELO_SOMBRA (soil shadow), 1 = SUELO_LUZ (soil light),
2 = MALLA_SOMBRA (mesh shadow), 3 = MALLA_LUZ (mesh light). -/
def classifyPixel4 (r g b : ℕ) : ℕ :=
  if intensity r g b < 120 ∧ greenRatio r g b ≤ (0.52 : ℚ) then 0
  else if 120 ≤ intensity r g b ∧ greenRatio r g b ≤ (0.52 : ℚ) then 1
  else if intensity r g b < 120 ∧ (0.52 : ℚ) < greenRatio r g b then 2
  else 3

/-- The label of flat pixel `p`: the loop of part_004 lines 247–250 reads
`data[i]`, `data[i+1]`, `data[i+2]` at `i = 4 * p`. -/
def labelAt (img : ImageData) (p : ℕ) : ℕ :=
  classifyPixel4 (img.data (4 * p)) (img.data (4 * p + 1)) (img.data (4 * p + 2))

/-- The 2D classification map of part_004 lines 273–277:
entry `(y, x)` holds the label of flat pixel `y * width + x`
(meaningful for `y < height`, `x < width`). -/
def labelMap (img : ImageData) (y x : ℕ) : ℕ :=
  labelAt img (y * img.width + x)

/-- `lightPixels`: one increment per pixel with `classIndex === 1 || classIndex === 3`
(part_004 lines 280–281).  The loop visits `data.length / 4` pixels,
which is `width * height` for a valid buffer. -/
def lightPixels4 (img : ImageData) : ℕ :=
  ((List.range (img.width * img.height)).filter
    (fun p => decide (labelAt img p = 1 ∨ labelAt img p = 3))).length

/-- `shadowPixels`: one increment per pixel with `classIndex === 0 || classIndex === 2`
(part_004 lines 282–283). -/
def shadowPixels4 (img : ImageData) : ℕ :=
  ((List.range (img.width * img.height)).filter
    (fun p => decide (labelAt img p = 0 ∨ labelAt img p = 2))).length

/-- `const totalPixels = data.length / 4` (part_004 line 288), i.e.
`width * height` for a valid buffer. -/
def totalPixels4 (img : ImageData) : ℕ := img.width * img.height

/-- `lightPercentage = (lightPixels / totalPixels) * 100` (part_004 line 289). -/
def lightPercentage4 (img : ImageData) : ℚ :=
  ((lightPixels4 img : ℚ) / totalPixels4 img) * 100

/-- `shadowPercentage = (shadowPixels / totalPixels) * 100` (part_004 line 290). -/
def shadowPercentage4 (img : ImageData) : ℚ :=
  ((shadowPixels4 img : ℚ) / totalPixels4 img) * 100

/-- The labelling rule of the training-data generator
(`generateTrainingData`, part_004 lines 142–182), applied to its random
real-valued samples: `intensity = (r + g + b) / 3.0`,
`greenRatio = g / (r + b + 1)` — here the denominator carries the `+ 1`
offset — and the same 120.0 / 0.52 rule ladder. -/
def trainingLabel (r g b : ℚ) : ℕ :=
  if (r + g + b) / 3 < 120 ∧ g / (r + b + 1) ≤ (0.52 : ℚ) then 0
  else if 120 ≤ (r + g + b) / 3 ∧ g / (r + b + 1) ≤ (0.52 : ℚ) then 1
  else if (r + g + b) / 3 < 120 ∧ (0.52 : ℚ) < g / (r + b + 1) then 2
  else 3

end RuleBased

namespace Service

/-!
The initialization state machine of the heuristic service version
(`src/services/tensorflowService.ts` lines 441–560): the flags
`isModelLoaded`, `isInitializing`, `isTraining` and the `model` field
(tracked as `modelCreated`), and the net effect of `initialize()`,
`createModel()` and `trainModel()` on them.
-/

/-- The mutable flags of the service object (lines 442–445). -/
structure ServiceState where
  isModelLoaded : Bool
  isInitializing : Bool
  isTraining : Bool
  modelCreated : Bool

/-- The fields' initializers: everything `false` / no model
(lines 442–445). -/
def initialState : ServiceState := ⟨false, false, false, false⟩

/-- Net state effect of `initialize()` (lines 450–477): returns early
when `isInitializing`; otherwise sets `isInitializing` and clears it in
the `finally` block.  It never touches `isModelLoaded`. -/
def initStep (s : ServiceState) : ServiceState :=
  if s.isInitializing then s else { s with isInitializing := false }

/-- Net state effect of `createModel()` (lines 454–535): returns early
when the model exists and `isModelLoaded`; otherwise builds the model
and sets `isModelLoaded := true` (line 529). -/
def createModel (s : ServiceState) : ServiceState :=
  if s.modelCreated ∧ s.isModelLoaded then s
  else { s with modelCreated := true, isModelLoaded := true }

/-- Net state effect of `trainModel()` of the heuristic version
(lines 540–560): returns early when `isTraining`; otherwise sets
`isModelLoaded := true` (line 552) and clears `isTraining` in the
`finally` block. -/
def trainModel (s : ServiceState) : ServiceState :=
  if s.isTraining then s else { s with isModelLoaded := true, isTraining := false }

/-- The record returned by the heuristic `classifyImagePixels`
(tensorflowService.ts lines 671–676); the base64 `processedImageData`
string is represented by the overlay pixel function that produces it. -/
structure ClassifyResult where
  lightPercentage : ℚ
  shadowPercentage : ℚ
  classificationMap : ℕ → ℕ → Option ℕ
  overlay : ℕ → ℕ → ℕ × ℕ × ℕ × ℕ

/-- The heuristic `classifyImagePixels` (lines 565–681) as seen from a
caller: `if (!this.isModelLoaded) throw new Error('Model not ready. Please initialize first.')`
(lines 567–569), otherwise the computed result.  The body contains no
other `throw`; the overlay helper catches its own canvas errors and
returns a placeholder string (lines 735–738). -/
def classifyE (s : ServiceState) (img : ImageData) :
    Except String ClassifyResult :=
  if s.isModelLoaded = false then
    Except.error "Model not ready. Please initialize first."
  else
    Except.ok ⟨Heuristic.lightPercentage img, Heuristic.shadowPercentage img,
      Heuristic.classificationMap img, Heuristic.overlay img⟩

/-- The result record of the rule-based `classifyImagePixels`
(part_004 lines 297–302). -/
structure RuleBasedResult where
  lightPercentage : ℚ
  shadowPercentage : ℚ
  labelMap : ℕ → ℕ → ℕ

/-- The rule-based `classifyImagePixels` (part_004 lines 236–308) as
seen from a caller: its body performs no initialization check at all —
it reads no service flag and contains no `throw` — so it succeeds in
every state. -/
def classify4E (s : ServiceState) (img : ImageData) :
    Except String RuleBasedResult :=
  Except.ok ⟨RuleBased.lightPercentage4 img, RuleBased.shadowPercentage4 img,
    RuleBased.labelMap img⟩

end Service

/-!
Definitions following the claims' and the spec's words, kept for
comparison against the code-derived definitions above.
-/

/-- Modelled from the spec: Policy A, the fixed-brightness-threshold
pixel classifier (spec §4.2, default threshold T = 130), is not present
under `src/`; per the spec's words: "brightness = (R+G+B)/3 on the
0–255 scale; label = LIGHT if brightness > T else SHADOW, with default
T = 130".  LIGHT = 0, SHADOW = 1, matching the repository's label
encoding. -/
def classifyPixelA (r g b : ℕ) : ℕ :=
  if (130 : ℚ) < ((r + g + b : ℕ) : ℚ) / 3 then 0 else 1

/-- Modelled from the spec: Policy A "classifies every pixel directly",
so the label map applies `classifyPixelA` to the RGBA bytes of each
pixel `(x, y)`. -/
def classifyImageA (img : ImageData) (y x : ℕ) : ℕ :=
  classifyPixelA (img.data (pixIdx img x y)) (img.data (pixIdx img x y + 1))
    (img.data (pixIdx img x y + 2))

/-- The brightness criterion exactly as claim C6 words it: +40 if
avgBrightness > 180, else +20 if > 120, else +10 if > 80, else 0. -/
def brightnessCriterion (v : ℚ) : ℕ :=
  if 180 < v then 40 else if 120 < v then 20 else if 80 < v then 10 else 0

/-- The color-balance criterion exactly as claim C6 words it: +30 if
min/max > 0.8, else +15 if > 0.6. -/
def balanceCriterion (v : ℚ) : ℕ :=
  if (0.8 : ℚ) < v then 30 else if (0.6 : ℚ) < v then 15 else 0

/-- The contrast criterion exactly as claim C6 words it: +20 if > 0.3,
else +10 if > 0.15. -/
def contrastCriterion (v : ℚ) : ℕ :=
  if (0.3 : ℚ) < v then 20 else if (0.15 : ℚ) < v then 10 else 0

/-- The max-channel criterion exactly as claim C6 words it: +10 if
> 200, else +5 if > 150. -/
def maxChannelCriterion (v : ℚ) : ℕ :=
  if 200 < v then 10 else if 150 < v then 5 else 0

/-- The four-class pixel rule exactly as claim C2 words it:
`greenRatio = G/(R+B+1)` (the `+1` in the denominator guarding division
by zero), thresholds 120.0 and 0.52. -/
def claimClassifyPixel4 (r g b : ℕ) : ℕ :=
  if ((r + g + b : ℕ) : ℚ) / 3 < 120 ∧ (g : ℚ) / ((r + b : ℕ) + 1 : ℚ) ≤ (0.52 : ℚ) then 0
  else if 120 ≤ ((r + g + b : ℕ) : ℚ) / 3 ∧ (g : ℚ) / ((r + b : ℕ) + 1 : ℚ) ≤ (0.52 : ℚ) then 1
  else if ((r + g + b : ℕ) : ℚ) / 3 < 120 ∧ (0.52 : ℚ) < (g : ℚ) / ((r + b : ℕ) + 1 : ℚ) then 2
  else 3

/-- The region-contrast feature as claim C8 words it requires the
standard deviation of per-pixel brightness; `ℚ` has no square root, so
the comparison is made through the variance (the standard deviation's
square): this is the mean of the region's per-pixel brightness
values. -/
def specBrightnessMean (img : ImageData) (x y : ℕ) : ℚ :=
  (Heuristic.brightnessList img x y).sum / Heuristic.pixelCount

/-- The variance of the region's per-pixel brightness values (the
square of the standard deviation claim C8 speaks of). -/
def specBrightnessVariance (img : ImageData) (x y : ℕ) : ℚ :=
  ((Heuristic.brightnessList img x y).map
    (fun b => (b - specBrightnessMean img x y) ^ 2)).sum / Heuristic.pixelCount

/-!
Concrete images used by counterexamples and witnesses.
-/

/-- A valid 1×1 image (gray pixel, full alpha): smaller than the
heuristic region size, so its region loops run zero times. -/
def cimg1 : ImageData := ⟨1, 1, fun i => if i < 4 then 100 else 0⟩

/-- A valid 21×21 all-white image: exactly one heuristic region, which
classifies LIGHT (label 0). -/
def whiteImg : ImageData := ⟨21, 21, fun _ => 255⟩

/-- A valid 21×21 all-black image: exactly one heuristic region, which
classifies SHADOW (label 1). -/
def zeroImg21 : ImageData := ⟨21, 21, fun _ => 0⟩

/-- A valid 21×21 two-tone image in a checkerboard pattern:
pixels with even `x + y` are (210, 180, 150), the others (150, 120, 90),
alpha 255.  Its region at (0, 0) has avgR = 180, avgG = 150, avgB = 120,
avgBrightness = 150, contrast = 60/255, colorBalance = 2/3 and
maxColor = 180: a heuristic light score of exactly 20 + 15 + 10 + 5 = 50. -/
def cimg6 : ImageData :=
  ⟨21, 21, fun i =>
    let p := i / 4
    let even := (p % 21 + p / 21) % 2 = 0
    if i % 4 = 0 then (if even then 210 else 150)
    else if i % 4 = 1 then (if even then 180 else 120)
    else if i % 4 = 2 then (if even then 150 else 90)
    else 255⟩

/-- A valid 21×21 image that is black except for a single white pixel at
(0, 0): in the region at (0, 0) the brightness range is 255 (contrast 1)
while the brightness standard deviation is far smaller. -/
def cimg8 : ImageData :=
  ⟨21, 21, fun i => if i < 3 then 255 else if i % 4 = 3 then 255 else 0⟩

/-- A 1×1 gray-level image with r = g = b = v and alpha 255, used for
the Policy A threshold boundary cases. -/
def imgGray (v : ℕ) : ImageData :=
  ⟨1, 1, fun i => if i = 3 then 255 else if i < 4 then v else 0⟩

/-- The heuristic region at `(x, y)` of `img` reads only zero bytes
(the degenerate all-zero input of claim C9). -/
abbrev ZeroRegion (img : ImageData) (x y : ℕ) : Prop :=
  ∀ p ∈ Heuristic.regionOffsets,
    img.data (pixIdx img (x + p.2) (y + p.1)) = 0 ∧
    img.data (pixIdx img (x + p.2) (y + p.1) + 1) = 0 ∧
    img.data (pixIdx img (x + p.2) (y + p.1) + 2) = 0

/-!
General helper lemmas about folds and sums, used to evaluate the
region features without unfolding the 400-element region lists in `ℚ`.
-/

theorem foldl_min_le_init (l : List ℚ) (a : ℚ) : l.foldl min a ≤ a := by
  induction l generalizing a with
  | nil => simp
  | cons x l ih => exact le_trans (ih _) (min_le_left _ _)

theorem foldl_min_le_mem (l : List ℚ) (a : ℚ) : ∀ b ∈ l, l.foldl min a ≤ b := by
  induction l generalizing a with
  | nil => simp
  | cons x l ih =>
    intro b hb
    rw [List.foldl_cons]
    rcases List.mem_cons.mp hb with rfl | hb
    · exact le_trans (foldl_min_le_init l (min a b)) (min_le_right a b)
    · exact ih _ b hb

theorem foldl_min_mem_or (l : List ℚ) (a : ℚ) :
    l.foldl min a ∈ l ∨ l.foldl min a = a := by
  induction l generalizing a with
  | nil => simp
  | cons x l ih =>
    rw [List.foldl_cons]
    rcases ih (min a x) with h | h
    · exact Or.inl (List.mem_cons_of_mem _ h)
    · rcases min_cases a x with ⟨h2, _⟩ | ⟨h2, _⟩
      · exact Or.inr (by rw [h, h2])
      · exact Or.inl (by rw [h, h2]; exact List.mem_cons_self _ _)

theorem foldl_min_eq (l : List ℚ) (a m : ℚ) (hm : m ∈ l)
    (hlb : ∀ b ∈ l, m ≤ b) (ha : m ≤ a) : l.foldl min a = m := by
  refine le_antisymm (foldl_min_le_mem l a m hm) ?_
  rcases foldl_min_mem_or l a with h | h
  · exact hlb _ h
  · rw [h]; exact ha

theorem foldl_max_init_le (l : List ℚ) (a : ℚ) : a ≤ l.foldl max a := by
  induction l generalizing a with
  | nil => simp
  | cons x l ih => exact le_trans (le_max_left _ _) (ih _)

theorem foldl_max_mem_le (l : List ℚ) (a : ℚ) : ∀ b ∈ l, b ≤ l.foldl max a := by
  induction l generalizing a with
  | nil => simp
  | cons x l ih =>
    intro b hb
    rw [List.foldl_cons]
    rcases List.mem_cons.mp hb with rfl | hb
    · exact le_trans (le_max_right a b) (foldl_max_init_le l (max a b))
    · exact ih _ b hb

theorem foldl_max_mem_or (l : List ℚ) (a : ℚ) :
    l.foldl max a ∈ l ∨ l.foldl max a = a := by
  induction l generalizing a with
  | nil => simp
  | cons x l ih =>
    rw [List.foldl_cons]
    rcases ih (max a x) with h | h
    · exact Or.inl (List.mem_cons_of_mem _ h)
    · rcases max_cases a x with ⟨h2, _⟩ | ⟨h2, _⟩
      · exact Or.inr (by rw [h, h2])
      · exact Or.inl (by rw [h, h2]; exact List.mem_cons_self _ _)

theorem foldl_max_eq (l : List ℚ) (a m : ℚ) (hm : m ∈ l)
    (hub : ∀ b ∈ l, b ≤ m) (ha : a ≤ m) : l.foldl max a = m := by
  refine le_antisymm ?_ (foldl_max_mem_le l a m hm)
  rcases foldl_max_mem_or l a with h | h
  · exact hub _ h
  · rw [h]; exact ha

theorem sum_map_dichotomy {α : Type} (l : List α) (f : α → ℚ) (P : α → Bool)
    (v w : ℚ) (h : ∀ x ∈ l, if P x then f x = v else f x = w) :
    (l.map f).sum = (l.countP P : ℚ) * v + (l.countP (fun x => !P x) : ℚ) * w := by
  induction l with
  | nil => simp
  | cons x l ih =>
    have hx := h x (List.mem_cons_self x l)
    have hl : ∀ y ∈ l, if P y then f y = v else f y = w :=
      fun y hy => h y (List.mem_cons_of_mem x hy)
    by_cases hP : P x = true
    · rw [hP, if_pos rfl] at hx
      simp only [List.map_cons, List.sum_cons, List.countP_cons, hP, ih hl, hx,
        Bool.not_true, Bool.false_eq_true, if_false, if_true]
      push_cast
      ring
    · have hPb : P x = false := by simpa using hP
      rw [hPb] at hx; simp only [Bool.false_eq_true, if_false] at hx
      simp only [List.map_cons, List.sum_cons, List.countP_cons, hPb, ih hl, hx,
        Bool.not_false, Bool.false_eq_true, if_false, if_true]
      push_cast
      ring

theorem sum_map_ite_add {α : Type} (l : List α) (c : α → Prop) [DecidablePred c]
    (n : α → ℕ) :
    (l.map fun a => if c a then n a else 0).sum
      + (l.map fun a => if c a then 0 else n a).sum = (l.map n).sum := by
  induction l with
  | nil => rfl
  | cons x l ih =>
    simp only [List.map_cons, List.sum_cons]
    by_cases h : c x <;> simp only [h, if_true, if_false] <;> omega

theorem le_sum_of_mem_map {α : Type} (l : List α) (f : α → ℕ) {a : α}
    (h : a ∈ l) : f a ≤ (l.map f).sum := by
  induction l with
  | nil => simp at h
  | cons x l ih =>
    rcases List.mem_cons.mp h with rfl | h
    · simp only [List.map_cons, List.sum_cons]; omega
    · simp only [List.map_cons, List.sum_cons]
      exact le_trans (ih h) (by omega)

/-!
Membership characterizations of the loop-index lists.
-/

theorem mem_regionOffsets {p : ℕ × ℕ} :
    p ∈ Heuristic.regionOffsets ↔
      p.1 < Heuristic.regionSize ∧ p.2 < Heuristic.regionSize := by
  obtain ⟨dy, dx⟩ := p
  simp only [Heuristic.regionOffsets, List.mem_flatMap, List.mem_map,
    List.mem_range, Prod.mk.injEq]
  constructor
  · rintro ⟨a, ha, b, hb, rfl, rfl⟩; exact ⟨ha, hb⟩
  · rintro ⟨h1, h2⟩; exact ⟨dy, h1, dx, h2, rfl, rfl⟩

theorem mem_regionStarts {dim v : ℕ} :
    v ∈ Heuristic.regionStarts dim ↔
      v % Heuristic.regionSize = 0 ∧ v + Heuristic.regionSize < dim := by
  simp only [Heuristic.regionStarts, List.mem_map, List.mem_range,
    Heuristic.regionSize]
  constructor
  · rintro ⟨k, hk, rfl⟩; omega
  · rintro ⟨h1, h2⟩; exact ⟨v / 20, by omega, by omega⟩

theorem regionStarts_eq_nil {dim : ℕ} (h : dim ≤ Heuristic.regionSize) :
    Heuristic.regionStarts dim = [] := by
  have : (dim - Heuristic.regionSize + Heuristic.regionSize - 1)
      / Heuristic.regionSize = 0 := by
    simp only [Heuristic.regionSize] at h ⊢; omega
  simp [Heuristic.regionStarts, this]

/-!
Evaluation of the heuristic features on distinguished regions.
-/

theorem brightness_mem (img : ImageData) (x y : ℕ) {p : ℕ × ℕ}
    (hp : p ∈ Heuristic.regionOffsets) :
    (Heuristic.brightNat img x y p : ℚ) / 3 ∈ Heuristic.brightnessList img x y :=
  List.mem_map.mpr ⟨p, hp, rfl⟩

theorem zeroRegion_lightScore {img : ImageData} {x y : ℕ}
    (h : ZeroRegion img x y) : Heuristic.lightScore img x y = 0 := by
  have hR : Heuristic.totalR img x y = 0 := by
    refine List.sum_eq_zero ?_
    rintro v hv
    obtain ⟨p, hp, rfl⟩ := List.mem_map.mp hv
    exact (h p hp).1
  have hG : Heuristic.totalG img x y = 0 := by
    refine List.sum_eq_zero ?_
    rintro v hv
    obtain ⟨p, hp, rfl⟩ := List.mem_map.mp hv
    exact (h p hp).2.1
  have hB : Heuristic.totalB img x y = 0 := by
    refine List.sum_eq_zero ?_
    rintro v hv
    obtain ⟨p, hp, rfl⟩ := List.mem_map.mp hv
    exact (h p hp).2.2
  have hb0 : ∀ b ∈ Heuristic.brightnessList img x y, b = 0 := by
    intro b hb
    obtain ⟨p, hp, rfl⟩ := List.mem_map.mp hb
    obtain ⟨h1, h2, h3⟩ := h p hp
    simp [Heuristic.brightNat, h1, h2, h3]
  have hmem0 : (0 : ℚ) ∈ Heuristic.brightnessList img x y := by
    have hp0 : ((0, 0) : ℕ × ℕ) ∈ Heuristic.regionOffsets := by decide
    have hm := brightness_mem img x y hp0
    rwa [hb0 _ hm] at hm
  have hmin : Heuristic.minBrightness img x y = 0 :=
    foldl_min_eq _ _ 0 hmem0 (fun b hb => (hb0 b hb).ge) (by norm_num)
  have hmax : Heuristic.maxBrightness img x y = 0 :=
    foldl_max_eq _ _ 0 hmem0 (fun b hb => (hb0 b hb).le) le_rfl
  unfold Heuristic.lightScore Heuristic.avgBrightness Heuristic.colorBalance
    Heuristic.maxColor Heuristic.contrast Heuristic.avgR Heuristic.avgG
    Heuristic.avgB
  rw [hR, hG, hB, hmin, hmax]
  norm_num

theorem zeroRegion_classify {img : ImageData} {x y : ℕ}
    (h : ZeroRegion img x y) : Heuristic.classifyRegion img x y = 1 := by
  unfold Heuristic.classifyRegion
  rw [zeroRegion_lightScore h]
  norm_num

theorem zeroRegion_zeroImg21 : ZeroRegion zeroImg21 0 0 :=
  fun _ _ => ⟨rfl, rfl, rfl⟩

theorem white_lightScore : Heuristic.lightScore whiteImg 0 0 = 80 := by
  have hR : Heuristic.totalR whiteImg 0 0 = 102000 := by decide
  have hG : Heuristic.totalG whiteImg 0 0 = 102000 := by decide
  have hB : Heuristic.totalB whiteImg 0 0 = 102000 := by decide
  have hb : ∀ b ∈ Heuristic.brightnessList whiteImg 0 0, b = 255 := by
    intro b hb
    obtain ⟨p, hp, rfl⟩ := List.mem_map.mp hb
    norm_num [Heuristic.brightNat, whiteImg]
  have hmem : (255 : ℚ) ∈ Heuristic.brightnessList whiteImg 0 0 := by
    have hp0 : ((0, 0) : ℕ × ℕ) ∈ Heuristic.regionOffsets := by decide
    have hm := brightness_mem whiteImg 0 0 hp0
    rwa [hb _ hm] at hm
  have hmin : Heuristic.minBrightness whiteImg 0 0 = 255 :=
    foldl_min_eq _ _ 255 hmem (fun b hb' => (hb b hb').ge) le_rfl
  have hmax : Heuristic.maxBrightness whiteImg 0 0 = 255 :=
    foldl_max_eq _ _ 255 hmem (fun b hb' => (hb b hb').le) (by norm_num)
  unfold Heuristic.lightScore Heuristic.avgBrightness Heuristic.colorBalance
    Heuristic.maxColor Heuristic.contrast Heuristic.avgR Heuristic.avgG
    Heuristic.avgB Heuristic.pixelCount Heuristic.regionSize
  rw [hR, hG, hB, hmin, hmax]
  norm_num

theorem white_classify : Heuristic.classifyRegion whiteImg 0 0 = 0 := by
  unfold Heuristic.classifyRegion
  rw [white_lightScore]
  norm_num

theorem classificationMap_white :
    Heuristic.classificationMap whiteImg 0 0 = some 0 := by
  have hreg : Heuristic.allRegions whiteImg = [(0, 0)] := by decide
  unfold Heuristic.classificationMap
  rw [hreg]
  simp only [List.foldl_cons, List.foldl_nil, Heuristic.writeRegion]
  rw [if_pos (by norm_num [whiteImg, Heuristic.regionSize]), white_classify]

theorem classificationMap_zero21 :
    Heuristic.classificationMap zeroImg21 0 0 = some 1 := by
  have hreg : Heuristic.allRegions zeroImg21 = [(0, 0)] := by decide
  unfold Heuristic.classificationMap
  rw [hreg]
  simp only [List.foldl_cons, List.foldl_nil, Heuristic.writeRegion]
  rw [if_pos (by norm_num [zeroImg21, Heuristic.regionSize]),
    zeroRegion_classify zeroRegion_zeroImg21]

/-!
Characterization of the four rule-based branches (part_004
lines 262–270).
-/

theorem classify4_eq_zero_iff (r g b : ℕ) :
    RuleBased.classifyPixel4 r g b = 0 ↔
      RuleBased.intensity r g b < 120 ∧
        RuleBased.greenRatio r g b ≤ (0.52 : ℚ) := by
  unfold RuleBased.classifyPixel4
  rcases lt_or_le (RuleBased.intensity r g b) 120 with hI | hI <;>
    rcases le_or_lt (RuleBased.greenRatio r g b) (0.52 : ℚ) with hG | hG <;>
    first
      | (simp [hI, hG, not_le.mpr hI, not_lt.mpr hG]; done)
      | (simp [hI, hG, not_le.mpr hI, not_le.mpr hG]; done)
      | (simp [hI, hG, not_lt.mpr hI, not_lt.mpr hG]; done)
      | (simp [hI, hG, not_lt.mpr hI, not_le.mpr hG]; done)

theorem classify4_eq_one_iff (r g b : ℕ) :
    RuleBased.classifyPixel4 r g b = 1 ↔
      120 ≤ RuleBased.intensity r g b ∧
        RuleBased.greenRatio r g b ≤ (0.52 : ℚ) := by
  unfold RuleBased.classifyPixel4
  rcases lt_or_le (RuleBased.intensity r g b) 120 with hI | hI <;>
    rcases le_or_lt (RuleBased.greenRatio r g b) (0.52 : ℚ) with hG | hG <;>
    first
      | (simp [hI, hG, not_le.mpr hI, not_lt.mpr hG]; done)
      | (simp [hI, hG, not_le.mpr hI, not_le.mpr hG]; done)
      | (simp [hI, hG, not_lt.mpr hI, not_lt.mpr hG]; done)
      | (simp [hI, hG, not_lt.mpr hI, not_le.mpr hG]; done)

theorem classify4_eq_two_iff (r g b : ℕ) :
    RuleBased.classifyPixel4 r g b = 2 ↔
      RuleBased.intensity r g b < 120 ∧
        (0.52 : ℚ) < RuleBased.greenRatio r g b := by
  unfold RuleBased.classifyPixel4
  rcases lt_or_le (RuleBased.intensity r g b) 120 with hI | hI <;>
    rcases le_or_lt (RuleBased.greenRatio r g b) (0.52 : ℚ) with hG | hG <;>
    first
      | (simp [hI, hG, not_le.mpr hI, not_lt.mpr hG]; done)
      | (simp [hI, hG, not_le.mpr hI, not_le.mpr hG]; done)
      | (simp [hI, hG, not_lt.mpr hI, not_lt.mpr hG]; done)
      | (simp [hI, hG, not_lt.mpr hI, not_le.mpr hG]; done)

theorem classify4_eq_three_iff (r g b : ℕ) :
    RuleBased.classifyPixel4 r g b = 3 ↔
      120 ≤ RuleBased.intensity r g b ∧
        (0.52 : ℚ) < RuleBased.greenRatio r g b := by
  unfold RuleBased.classifyPixel4
  rcases lt_or_le (RuleBased.intensity r g b) 120 with hI | hI <;>
    rcases le_or_lt (RuleBased.greenRatio r g b) (0.52 : ℚ) with hG | hG <;>
    first
      | (simp [hI, hG, not_le.mpr hI, not_lt.mpr hG]; done)
      | (simp [hI, hG, not_le.mpr hI, not_le.mpr hG]; done)
      | (simp [hI, hG, not_lt.mpr hI, not_lt.mpr hG]; done)
      | (simp [hI, hG, not_lt.mpr hI, not_le.mpr hG]; done)

theorem classify4_cases (r g b : ℕ) :
    RuleBased.classifyPixel4 r g b = 0 ∨ RuleBased.classifyPixel4 r g b = 1 ∨
      RuleBased.classifyPixel4 r g b = 2 ∨ RuleBased.classifyPixel4 r g b = 3 := by
  unfold RuleBased.classifyPixel4
  split_ifs <;> simp

/-!
Claim theorems.
-/

/-- C1 (code_bug evaluation): on the valid all-white 21×21 image the
single heuristic region classifies LIGHT (label 0), yet the overlay
paints its pixels blue `(0,0,255,255)`; on the valid all-black image
the region classifies SHADOW (label 1) and the overlay paints green
`(0,255,0,255)`.  This contradicts the claimed color table
LIGHT→green, SHADOW→blue: the renderer's branches are swapped relative
to the classifier's own label encoding `0 = light, 1 = shadow`. -/
theorem C1_overlay_colors_swapped :
    whiteImg.Valid ∧ zeroImg21.Valid ∧
    Heuristic.classificationMap whiteImg 0 0 = some 0 ∧
    Heuristic.overlay whiteImg 0 0 = (0, 0, 255, 255) ∧
    Heuristic.classificationMap zeroImg21 0 0 = some 1 ∧
    Heuristic.overlay zeroImg21 0 0 = (0, 255, 0, 255) := by
  refine ⟨⟨by norm_num [whiteImg], by norm_num [whiteImg], fun i _ => le_rfl⟩,
    ⟨by norm_num [zeroImg21], by norm_num [zeroImg21],
      fun i _ => by norm_num [zeroImg21]⟩,
    classificationMap_white, ?_, classificationMap_zero21, ?_⟩
  · unfold Heuristic.overlay Heuristic.overlayPixel
    rw [classificationMap_white]
    norm_num
  · unfold Heuristic.overlay Heuristic.overlayPixel
    rw [classificationMap_zero21]
    norm_num

/-- C9: a region whose bytes are all zero classifies deterministically
(no error path exists in the embedded formulas): the heuristic light
score is 0, below the threshold 50, giving SHADOW (label 1) even though
the color-balance ratio degenerates to 0/0; and an all-zero pixel under
the four-class rule has intensity 0 < 120 and greenRatio 0 ≤ 0.52,
giving SOIL_SHADOW (class 0). -/
theorem C9_all_zero_input : ∀ (img : ImageData) (x y : ℕ), ZeroRegion img x y →
    (Heuristic.lightScore img x y = 0 ∧ Heuristic.classifyRegion img x y = 1) ∧
    RuleBased.classifyPixel4 0 0 0 = 0 ∧
    RuleBased.intensity 0 0 0 = 0 ∧ RuleBased.greenRatio 0 0 0 = 0 := by
  intro img x y h
  refine ⟨⟨zeroRegion_lightScore h, zeroRegion_classify h⟩, ?_, ?_, ?_⟩
  · norm_num [RuleBased.classifyPixel4, RuleBased.intensity, RuleBased.greenRatio]
  · norm_num [RuleBased.intensity]
  · norm_num [RuleBased.greenRatio]

/-- Witness for C9 at a concrete input: the all-black 21×21 image. -/
theorem C9_witness :
    (Heuristic.lightScore zeroImg21 0 0 = 0 ∧
      Heuristic.classifyRegion zeroImg21 0 0 = 1) ∧
    RuleBased.classifyPixel4 0 0 0 = 0 ∧
    RuleBased.intensity 0 0 0 = 0 ∧ RuleBased.greenRatio 0 0 0 = 0 :=
  C9_all_zero_input zeroImg21 0 0 (fun _ _ => ⟨rfl, rfl, rfl⟩)

/-- C7 (spec-modelled, Policy A absent from src/): under the fixed
threshold T = 130, a pixel is LIGHT (0) iff (R+G+B)/3 > 130; the 1×1
gray images with r = g = b = 131, 130, 129 classify LIGHT, SHADOW,
SHADOW respectively, and all three are valid images. -/
theorem C7_policyA_threshold :
    (∀ r g b : ℕ,
      classifyPixelA r g b = 0 ↔ (130 : ℚ) < ((r + g + b : ℕ) : ℚ) / 3) ∧
    classifyImageA (imgGray 131) 0 0 = 0 ∧
    classifyImageA (imgGray 130) 0 0 = 1 ∧
    classifyImageA (imgGray 129) 0 0 = 1 ∧
    (imgGray 131).Valid ∧ (imgGray 130).Valid ∧ (imgGray 129).Valid := by
  have hvalid : ∀ v ≤ 255, (imgGray v).Valid := by
    intro v hv
    refine ⟨one_pos, one_pos, fun i _ => ?_⟩
    show (if i = 3 then 255 else if i < 4 then v else 0) ≤ 255
    split_ifs <;> omega
  refine ⟨?_, ?_, ?_, ?_, hvalid 131 (by norm_num), hvalid 130 (by norm_num),
    hvalid 129 (by norm_num)⟩
  · intro r g b
    unfold classifyPixelA
    split_ifs with h <;> simpa using h
  · norm_num [classifyImageA, classifyPixelA, imgGray, pixIdx]
  · norm_num [classifyImageA, classifyPixelA, imgGray, pixIdx]
  · norm_num [classifyImageA, classifyPixelA, imgGray, pixIdx]

/-- C10: for every classification map, every overlay pixel is one of
the two table colors and has alpha 255; a missing map entry is coerced
to label 0 by the `classificationMap[y]?.[x] || 0` fallback and
rendered blue `(0,0,255,255)`, identically to a genuine label-0
entry. -/
theorem C10_overlay_total_fallback : ∀ (m : ℕ → ℕ → Option ℕ) (y x : ℕ),
    (Heuristic.overlayPixel m y x = (0, 255, 0, 255) ∨
      Heuristic.overlayPixel m y x = (0, 0, 255, 255)) ∧
    (Heuristic.overlayPixel m y x).2.2.2 = 255 ∧
    (m y x = none →
      Heuristic.overlayPixel m y x = (0, 0, 255, 255) ∧
      Heuristic.overlayPixel m y x = Heuristic.overlayPixel (fun _ _ => some 0) y x) := by
  intro m y x
  refine ⟨?_, ?_, ?_⟩
  · by_cases h : (m y x).getD 0 = 1 <;> simp [Heuristic.overlayPixel, h]
  · by_cases h : (m y x).getD 0 = 1 <;> simp [Heuristic.overlayPixel, h]
  · intro hnone
    simp [Heuristic.overlayPixel, hnone]

/-- Witness for C10 at a concrete input: the everywhere-missing map. -/
theorem C10_witness :
    Heuristic.overlayPixel (fun _ _ => none) 0 0 = (0, 0, 255, 255) ∧
    Heuristic.overlayPixel (fun _ _ => none) 0 0
      = Heuristic.overlayPixel (fun _ _ => some 0) 0 0 :=
  (C10_overlay_total_fallback (fun _ _ => none) 0 0).2.2 rfl

/-- C2 (counterexample): at the pixel (R,G,B) = (0,255,0) the claim
says greenRatio = 255/(0+0+1) = 255 > 0.52, so the pixel should land
in a MESH class (here MESH_SHADOW = 2, since intensity 85 < 120); the
code's classifier instead defines greenRatio as 0 when R+B = 0 and
yields SOIL_SHADOW = 0. -/
theorem C2_counterexample :
    RuleBased.classifyPixel4 0 255 0 = 0 ∧
    claimClassifyPixel4 0 255 0 = 2 ∧
    ¬ (RuleBased.classifyPixel4 0 255 0 = 2 ∨
        RuleBased.classifyPixel4 0 255 0 = 3) := by
  refine ⟨?_, ?_, ?_⟩ <;>
    norm_num [RuleBased.classifyPixel4, RuleBased.intensity,
      RuleBased.greenRatio, claimClassifyPixel4]

/-- C2 (amended): the four-class classifier compares
intensity = (R+G+B)/3 against 120.0 and greenRatio against 0.52 exactly
as the rule ladder states, but with greenRatio = 0 when R+B = 0 and
G/(R+B) otherwise (an explicit zero-denominator guard instead of the
claimed +1 offset); consequently a pixel with R = B = 0 always falls in
a SOIL class.  The G/(R+B+1) formula of the claim is the labelling rule
of the training-data generator. -/
theorem C2_amended : ∀ r g b : ℕ,
    (RuleBased.classifyPixel4 r g b = 0 ↔
      RuleBased.intensity r g b < 120 ∧
        RuleBased.greenRatio r g b ≤ (0.52 : ℚ)) ∧
    (RuleBased.classifyPixel4 r g b = 1 ↔
      120 ≤ RuleBased.intensity r g b ∧
        RuleBased.greenRatio r g b ≤ (0.52 : ℚ)) ∧
    (RuleBased.classifyPixel4 r g b = 2 ↔
      RuleBased.intensity r g b < 120 ∧
        (0.52 : ℚ) < RuleBased.greenRatio r g b) ∧
    (RuleBased.classifyPixel4 r g b = 3 ↔
      120 ≤ RuleBased.intensity r g b ∧
        (0.52 : ℚ) < RuleBased.greenRatio r g b) ∧
    (r + b = 0 →
      RuleBased.classifyPixel4 r g b = 0 ∨ RuleBased.classifyPixel4 r g b = 1) ∧
    RuleBased.trainingLabel r g b = claimClassifyPixel4 r g b := by
  intro r g b
  refine ⟨classify4_eq_zero_iff r g b, classify4_eq_one_iff r g b,
    classify4_eq_two_iff r g b, classify4_eq_three_iff r g b, ?_, ?_⟩
  · intro h0
    have hG : RuleBased.greenRatio r g b = 0 := by
      unfold RuleBased.greenRatio
      rw [if_pos h0]
    by_cases hI : RuleBased.intensity r g b < 120
    · exact Or.inl ((classify4_eq_zero_iff r g b).mpr ⟨hI, by rw [hG]; norm_num⟩)
    · exact Or.inr ((classify4_eq_one_iff r g b).mpr
        ⟨not_lt.mp hI, by rw [hG]; norm_num⟩)
  · have hcast1 : ((r : ℚ) + g + b) / 3 = ((r + g + b : ℕ) : ℚ) / 3 := by
      push_cast; ring
    have hcast2 : (g : ℚ) / ((r : ℚ) + b + 1)
        = (g : ℚ) / (((r + b : ℕ) : ℚ) + 1) := by
      push_cast; ring
    unfold RuleBased.trainingLabel claimClassifyPixel4
    simp only [hcast1, hcast2]

/-- Witness for C2's amended claim at the pixel (0, 255, 0): R+B = 0
lands in a SOIL class. -/
theorem C2_witness :
    RuleBased.classifyPixel4 0 255 0 = 0 ∨ RuleBased.classifyPixel4 0 255 0 = 1 :=
  (C2_amended 0 255 0).2.2.2.2.1 rfl

/-- C5 (counterexample): after `initialize()` has completed on a fresh
service, classifying a valid image still throws the "Model not ready"
error — the error is keyed to `isModelLoaded`, which only
`createModel()`/`trainModel()` set — and the rule-based service version
classifies successfully without any initialization at all, so "fails
iff invoked before initialization completes" fails in both
directions. -/
theorem C5_counterexample :
    whiteImg.Valid ∧
    Service.classifyE (Service.initStep Service.initialState) whiteImg
      = Except.error "Model not ready. Please initialize first." ∧
    (Service.classify4E Service.initialState whiteImg).isOk = true :=
  ⟨⟨by norm_num [whiteImg], by norm_num [whiteImg], fun i _ => le_rfl⟩, rfl, rfl⟩

/-- C5 (amended): the heuristic classifier succeeds exactly when
`isModelLoaded` is set, and otherwise fails with the "Model not ready.
Please initialize first." error; after the full setup sequence
initialize → createModel → trainModel it always succeeds; the
rule-based variant's classifier performs no initialization check and
succeeds in every state. -/
theorem C5_amended : ∀ (s : Service.ServiceState) (img : ImageData),
    ((Service.classifyE s img).isOk = s.isModelLoaded) ∧
    (s.isModelLoaded = false →
      Service.classifyE s img
        = Except.error "Model not ready. Please initialize first.") ∧
    ((Service.classifyE
        (Service.trainModel (Service.createModel (Service.initStep s))) img).isOk
      = true) ∧
    ((Service.classify4E s img).isOk = true) := by
  intro s img
  obtain ⟨ml, ini, tr, mc⟩ := s
  cases ml <;> cases ini <;> cases tr <;> cases mc <;>
    simp [Service.classifyE, Service.classify4E, Service.initStep,
      Service.createModel, Service.trainModel, Except.isOk, Except.toBool]

/-- Witness for C5's amended claim at the fresh state: classification
fails with the "Model not ready" error before any setup ran. -/
theorem C5_witness :
    Service.classifyE Service.initialState whiteImg
      = Except.error "Model not ready. Please initialize first." :=
  (C5_amended Service.initialState whiteImg).2.1 rfl

/-!
The classification map's coverage (claim C3).
-/

theorem isSome_foldl_write (img : ImageData) (L : List (ℕ × ℕ))
    (m : ℕ → ℕ → Option ℕ) (py px : ℕ) :
    ((L.foldl (Heuristic.writeRegion img) m) py px).isSome = true ↔
      (∃ pos ∈ L, pos.2 ≤ py ∧ py < pos.2 + Heuristic.regionSize ∧
        pos.1 ≤ px ∧ px < pos.1 + Heuristic.regionSize ∧
        py < img.height ∧ px < img.width) ∨ (m py px).isSome = true := by
  induction L generalizing m with
  | nil => simp
  | cons a L ih =>
    rw [List.foldl_cons, ih]
    constructor
    · rintro (⟨pos, hpos, hc⟩ | hsome)
      · exact Or.inl ⟨pos, List.mem_cons_of_mem a hpos, hc⟩
      · unfold Heuristic.writeRegion at hsome
        split_ifs at hsome with hca
        · exact Or.inl ⟨a, List.mem_cons_self a L, hca⟩
        · exact Or.inr hsome
    · rintro (⟨pos, hpos, hc⟩ | hsome)
      · rcases List.mem_cons.mp hpos with rfl | hpos
        · refine Or.inr ?_
          unfold Heuristic.writeRegion
          rw [if_pos hc]
          rfl
        · exact Or.inl ⟨pos, hpos, hc⟩
      · refine Or.inr ?_
        unfold Heuristic.writeRegion
        split_ifs
        · rfl
        · exact hsome

/-- C3 (amended): a pixel position carries a label exactly when some
processed region tile covers it — the map is `Option`-valued, so a
covered pixel has exactly one label — and the right/bottom remainder
stays unlabeled; in particular every image with width ≤ 20 or
height ≤ 20 has a completely empty classification map. -/
theorem C3_amended :
    (∀ (img : ImageData) (y x : ℕ),
      (Heuristic.classificationMap img y x).isSome = true ↔
        ∃ pos ∈ Heuristic.allRegions img,
          pos.2 ≤ y ∧ y < pos.2 + Heuristic.regionSize ∧
          pos.1 ≤ x ∧ x < pos.1 + Heuristic.regionSize ∧
          y < img.height ∧ x < img.width) ∧
    (∀ (img : ImageData) (y x : ℕ),
      img.width ≤ Heuristic.regionSize ∨ img.height ≤ Heuristic.regionSize →
        Heuristic.classificationMap img y x = none) := by
  constructor
  · intro img y x
    unfold Heuristic.classificationMap
    rw [isSome_foldl_write]
    simp
  · intro img y x h
    have hnil : Heuristic.allRegions img = [] := by
      unfold Heuristic.allRegions
      rcases h with h | h
      · simp [regionStarts_eq_nil h]
      · rw [regionStarts_eq_nil h]
        rfl
    unfold Heuristic.classificationMap
    rw [hnil]
    rfl

/-- C3 (counterexample): the valid 1×1 image has positive dimensions
and a well-formed buffer, yet its pixel (0,0) receives no label at all
— the region loops `for (y = 0; y < height - 20; y += 20)` never run,
so the claim that every pixel of every valid image is labeled fails. -/
theorem C3_counterexample :
    cimg1.Valid ∧ Heuristic.classificationMap cimg1 0 0 = none := by
  refine ⟨⟨one_pos, one_pos, fun i _ => ?_⟩, by decide⟩
  show (if i < 4 then 100 else 0) ≤ 255
  split_ifs <;> omega

/-- Witness for C3's amended claim: a 1×1 image is narrower than the
region size, so its map is empty everywhere. -/
theorem C3_witness : Heuristic.classificationMap cimg1 5 7 = none :=
  C3_amended.2 cimg1 5 7 (Or.inl (by decide))

/-!
The percentage partition (claim C4).
-/

theorem lightPixels_add_shadowPixels (img : ImageData) :
    Heuristic.lightPixels img + Heuristic.shadowPixels img
      = ((Heuristic.allRegions img).map (Heuristic.regionCoveredCount img)).sum := by
  unfold Heuristic.lightPixels Heuristic.shadowPixels
  exact sum_map_ite_add _ _ _

theorem zero_mem_regionStarts {dim : ℕ} (h : Heuristic.regionSize < dim) :
    0 ∈ Heuristic.regionStarts dim :=
  mem_regionStarts.mpr ⟨by simp, by simpa using h⟩

theorem origin_mem_allRegions {img : ImageData}
    (hw : Heuristic.regionSize < img.width)
    (hh : Heuristic.regionSize < img.height) :
    ((0, 0) : ℕ × ℕ) ∈ Heuristic.allRegions img := by
  unfold Heuristic.allRegions
  exact List.mem_flatMap.mpr ⟨0, zero_mem_regionStarts hh,
    List.mem_map.mpr ⟨0, zero_mem_regionStarts hw, rfl⟩⟩

theorem regionCoveredCount_origin {img : ImageData}
    (hw : Heuristic.regionSize < img.width)
    (hh : Heuristic.regionSize < img.height) :
    Heuristic.regionCoveredCount img (0, 0) = 400 := by
  unfold Heuristic.regionCoveredCount
  have hall : ∀ p ∈ Heuristic.regionOffsets,
      (decide (((0, 0) : ℕ × ℕ).2 + p.1 < img.height ∧
        ((0, 0) : ℕ × ℕ).1 + p.2 < img.width)) = true := by
    intro p hp
    obtain ⟨h1, h2⟩ := mem_regionOffsets.mp hp
    simp only [Heuristic.regionSize] at h1 h2 hw hh
    simp only [decide_eq_true_eq]
    omega
  rw [List.filter_eq_self.mpr hall]
  decide

theorem totalPixels_pos {img : ImageData}
    (hw : Heuristic.regionSize < img.width)
    (hh : Heuristic.regionSize < img.height) :
    0 < Heuristic.totalPixels img := by
  unfold Heuristic.totalPixels
  rw [lightPixels_add_shadowPixels]
  have h2 := le_sum_of_mem_map (Heuristic.allRegions img)
    (Heuristic.regionCoveredCount img) (origin_mem_allRegions hw hh)
  rw [regionCoveredCount_origin hw hh] at h2
  omega

theorem light4_add_shadow4 (img : ImageData) :
    RuleBased.lightPixels4 img + RuleBased.shadowPixels4 img
      = img.width * img.height := by
  unfold RuleBased.lightPixels4 RuleBased.shadowPixels4
  have hcong : (List.range (img.width * img.height)).filter
        (fun p => decide (RuleBased.labelAt img p = 0 ∨ RuleBased.labelAt img p = 2))
      = (List.range (img.width * img.height)).filter
        (fun p => !(decide (RuleBased.labelAt img p = 1 ∨ RuleBased.labelAt img p = 3))) := by
    apply List.filter_congr
    intro p _
    rcases classify4_cases (img.data (4 * p)) (img.data (4 * p + 1))
        (img.data (4 * p + 2)) with h | h | h | h <;>
      simp [RuleBased.labelAt, h]
  rw [hcong, ← List.length_eq_length_filter_add, List.length_range]

/-- C4 (amended): under the heuristic region policy the two percentages
sum to exactly 100 whenever at least one region is processed, i.e. when
both dimensions exceed the region size 20 (otherwise totalPixels = 0
and the percentages are 0/0, NaN in JavaScript); under the rule-based
pixel policy they sum to exactly 100 for every image with a positive
pixel count. -/
theorem C4_amended :
    (∀ img : ImageData, Heuristic.regionSize < img.width →
      Heuristic.regionSize < img.height →
      Heuristic.lightPercentage img + Heuristic.shadowPercentage img = 100) ∧
    (∀ img : ImageData, 0 < img.width * img.height →
      RuleBased.lightPercentage4 img + RuleBased.shadowPercentage4 img = 100) := by
  constructor
  · intro img hw hh
    have hT : ((Heuristic.totalPixels img : ℕ) : ℚ) ≠ 0 := by
      exact_mod_cast (totalPixels_pos hw hh).ne'
    unfold Heuristic.lightPercentage Heuristic.shadowPercentage
    rw [div_mul_eq_mul_div, div_mul_eq_mul_div, div_add_div_same, div_eq_iff hT]
    unfold Heuristic.totalPixels
    push_cast
    ring
  · intro img hpos
    have hLS := light4_add_shadow4 img
    have hT : ((RuleBased.totalPixels4 img : ℕ) : ℚ) ≠ 0 := by
      unfold RuleBased.totalPixels4
      exact_mod_cast hpos.ne'
    unfold RuleBased.lightPercentage4 RuleBased.shadowPercentage4
    rw [div_mul_eq_mul_div, div_mul_eq_mul_div, div_add_div_same, div_eq_iff hT]
    unfold RuleBased.totalPixels4
    rw [← hLS]
    push_cast
    ring

/-- C4 (counterexample): on the valid 1×1 image the heuristic policy
processes no region, so lightPixels = shadowPixels = totalPixels = 0
and the percentages are (0/0)·100 — `NaN` in JavaScript, 0 in this
model — and their sum is 0, not within 1e-6 of 100. -/
theorem C4_counterexample :
    cimg1.Valid ∧
    Heuristic.lightPercentage cimg1 + Heuristic.shadowPercentage cimg1 = 0 ∧
    ¬ (|Heuristic.lightPercentage cimg1 + Heuristic.shadowPercentage cimg1 - 100|
        ≤ 1 / 1000000) := by
  have hL : Heuristic.lightPixels cimg1 = 0 := by decide
  have hS : Heuristic.shadowPixels cimg1 = 0 := by decide
  have hsum : Heuristic.lightPercentage cimg1 + Heuristic.shadowPercentage cimg1 = 0 := by
    unfold Heuristic.lightPercentage Heuristic.shadowPercentage
    rw [hL, hS]
    norm_num
  refine ⟨⟨one_pos, one_pos, fun i _ => ?_⟩, hsum, by rw [hsum]; norm_num⟩
  show (if i < 4 then 100 else 0) ≤ 255
  split_ifs <;> omega

/-- Witness for C4's amended claim: the 21×21 white image for the
heuristic policy and the 1×1 image for the rule-based policy. -/
theorem C4_witness :
    Heuristic.lightPercentage whiteImg + Heuristic.shadowPercentage whiteImg = 100 ∧
    RuleBased.lightPercentage4 cimg1 + RuleBased.shadowPercentage4 cimg1 = 100 :=
  ⟨C4_amended.1 whiteImg (by decide) (by decide), C4_amended.2 cimg1 (by decide)⟩

/-!
Feature evaluation on the checkerboard image `cimg6` (claim C6) and on
the one-white-pixel image `cimg8` (claim C8).
-/

theorem cimg6_avgR : Heuristic.avgR cimg6 0 0 = 180 := by
  unfold Heuristic.avgR Heuristic.pixelCount Heuristic.regionSize
  rw [show Heuristic.totalR cimg6 0 0 = 72000 from by decide]
  norm_num

theorem cimg6_avgG : Heuristic.avgG cimg6 0 0 = 150 := by
  unfold Heuristic.avgG Heuristic.pixelCount Heuristic.regionSize
  rw [show Heuristic.totalG cimg6 0 0 = 60000 from by decide]
  norm_num

theorem cimg6_avgB : Heuristic.avgB cimg6 0 0 = 120 := by
  unfold Heuristic.avgB Heuristic.pixelCount Heuristic.regionSize
  rw [show Heuristic.totalB cimg6 0 0 = 48000 from by decide]
  norm_num

theorem cimg6_min : Heuristic.minBrightness cimg6 0 0 = 120 := by
  have hall : ∀ p ∈ Heuristic.regionOffsets,
      360 ≤ Heuristic.brightNat cimg6 0 0 p := by decide
  have hmem : (120 : ℚ) ∈ Heuristic.brightnessList cimg6 0 0 := by
    have hm := brightness_mem cimg6 0 0 (show ((0, 1) : ℕ × ℕ) ∈ Heuristic.regionOffsets from by decide)
    rw [show Heuristic.brightNat cimg6 0 0 (0, 1) = 360 from by decide] at hm
    norm_num at hm
    exact hm
  refine foldl_min_eq _ _ 120 hmem ?_ (by norm_num)
  intro b hb
  obtain ⟨p, hp, rfl⟩ := List.mem_map.mp hb
  have hc : (360 : ℚ) ≤ (Heuristic.brightNat cimg6 0 0 p : ℚ) := by
    exact_mod_cast hall p hp
  linarith

theorem cimg6_max : Heuristic.maxBrightness cimg6 0 0 = 180 := by
  have hall : ∀ p ∈ Heuristic.regionOffsets,
      Heuristic.brightNat cimg6 0 0 p ≤ 540 := by decide
  have hmem : (180 : ℚ) ∈ Heuristic.brightnessList cimg6 0 0 := by
    have hm := brightness_mem cimg6 0 0 (show ((0, 0) : ℕ × ℕ) ∈ Heuristic.regionOffsets from by decide)
    rw [show Heuristic.brightNat cimg6 0 0 (0, 0) = 540 from by decide] at hm
    norm_num at hm
    exact hm
  refine foldl_max_eq _ _ 180 hmem ?_ (by norm_num)
  intro b hb
  obtain ⟨p, hp, rfl⟩ := List.mem_map.mp hb
  have hc : (Heuristic.brightNat cimg6 0 0 p : ℚ) ≤ 540 := by
    exact_mod_cast hall p hp
  linarith

theorem cimg6_score : Heuristic.lightScore cimg6 0 0 = 50 := by
  unfold Heuristic.lightScore Heuristic.avgBrightness Heuristic.colorBalance
    Heuristic.maxColor Heuristic.contrast
  rw [cimg6_avgR, cimg6_avgG, cimg6_avgB, cimg6_min, cimg6_max]
  norm_num [min_def, max_def]

theorem cimg6_classify : Heuristic.classifyRegion cimg6 0 0 = 0 := by
  unfold Heuristic.classifyRegion
  rw [cimg6_score]
  norm_num

/-- C6: the heuristic light score is the sum of the four independent
criteria exactly as the claim states them, a region is LIGHT (0) iff
the score is ≥ 50, and the checkerboard image whose region scores
exactly 50 (20 + 15 + 10 + 5) resolves to LIGHT, confirming the
">=" tie-break. -/
theorem C6_heuristic_scoring :
    (∀ (img : ImageData) (x y : ℕ),
      Heuristic.lightScore img x y
        = brightnessCriterion (Heuristic.avgBrightness img x y)
          + balanceCriterion (Heuristic.colorBalance img x y)
          + contrastCriterion (Heuristic.contrast img x y)
          + maxChannelCriterion (Heuristic.maxColor img x y) ∧
      (Heuristic.classifyRegion img x y = 0 ↔
        50 ≤ Heuristic.lightScore img x y)) ∧
    Heuristic.lightScore cimg6 0 0 = 50 ∧
    Heuristic.classifyRegion cimg6 0 0 = 0 := by
  refine ⟨fun img x y => ⟨rfl, ?_⟩, cimg6_score, cimg6_classify⟩
  unfold Heuristic.classifyRegion
  split_ifs with h <;> simp [h]

theorem cimg8_min : Heuristic.minBrightness cimg8 0 0 = 0 := by
  have hmem : (0 : ℚ) ∈ Heuristic.brightnessList cimg8 0 0 := by
    have hm := brightness_mem cimg8 0 0 (show ((0, 1) : ℕ × ℕ) ∈ Heuristic.regionOffsets from by decide)
    rw [show Heuristic.brightNat cimg8 0 0 (0, 1) = 0 from by decide] at hm
    norm_num at hm
    exact hm
  refine foldl_min_eq _ _ 0 hmem ?_ (by norm_num)
  intro b hb
  obtain ⟨p, hp, rfl⟩ := List.mem_map.mp hb
  positivity

theorem cimg8_max : Heuristic.maxBrightness cimg8 0 0 = 255 := by
  have hall : ∀ p ∈ Heuristic.regionOffsets,
      Heuristic.brightNat cimg8 0 0 p ≤ 765 := by decide
  have hmem : (255 : ℚ) ∈ Heuristic.brightnessList cimg8 0 0 := by
    have hm := brightness_mem cimg8 0 0 (show ((0, 0) : ℕ × ℕ) ∈ Heuristic.regionOffsets from by decide)
    rw [show Heuristic.brightNat cimg8 0 0 (0, 0) = 765 from by decide] at hm
    norm_num at hm
    exact hm
  refine foldl_max_eq _ _ 255 hmem ?_ (by norm_num)
  intro b hb
  obtain ⟨p, hp, rfl⟩ := List.mem_map.mp hb
  have hc : (Heuristic.brightNat cimg8 0 0 p : ℚ) ≤ 765 := by
    exact_mod_cast hall p hp
  linarith

theorem cimg8_contrast : Heuristic.contrast cimg8 0 0 = 1 := by
  unfold Heuristic.contrast
  rw [cimg8_min, cimg8_max]
  norm_num

theorem cimg8_dichotomy : ∀ p ∈ Heuristic.regionOffsets,
    Heuristic.brightNat cimg8 0 0 p = 765 ∨ Heuristic.brightNat cimg8 0 0 p = 0 := by
  decide

theorem cimg8_sum : (Heuristic.brightnessList cimg8 0 0).sum = 255 := by
  have hs := sum_map_dichotomy Heuristic.regionOffsets
    (fun p => (Heuristic.brightNat cimg8 0 0 p : ℚ) / 3)
    (fun p => Heuristic.brightNat cimg8 0 0 p == 765) 255 0 ?_
  · unfold Heuristic.brightnessList
    rw [hs, show (Heuristic.regionOffsets.countP
        fun p => Heuristic.brightNat cimg8 0 0 p == 765) = 1 from by decide]
    norm_num
  · intro p hp
    rcases cimg8_dichotomy p hp with h | h <;> simp [h] <;> norm_num

theorem cimg8_mean : specBrightnessMean cimg8 0 0 = 255 / 400 := by
  unfold specBrightnessMean Heuristic.pixelCount Heuristic.regionSize
  rw [cimg8_sum]
  norm_num

theorem cimg8_variance : specBrightnessVariance cimg8 0 0 = 1037799 / 6400 := by
  unfold specBrightnessVariance
  rw [cimg8_mean]
  unfold Heuristic.brightnessList Heuristic.pixelCount Heuristic.regionSize
  rw [List.map_map]
  have hs := sum_map_dichotomy Heuristic.regionOffsets
    ((fun b => (b - (255 / 400 : ℚ)) ^ 2) ∘
      fun p => (Heuristic.brightNat cimg8 0 0 p : ℚ) / 3)
    (fun p => Heuristic.brightNat cimg8 0 0 p == 765)
    (((765 : ℚ) / 3 - 255 / 400) ^ 2) (((0 : ℚ) / 3 - 255 / 400) ^ 2) ?_
  · rw [hs, show (Heuristic.regionOffsets.countP
        fun p => Heuristic.brightNat cimg8 0 0 p == 765) = 1 from by decide,
      show (Heuristic.regionOffsets.countP
        fun p => !(Heuristic.brightNat cimg8 0 0 p == 765)) = 399 from by decide]
    norm_num
  · intro p hp
    rcases cimg8_dichotomy p hp with h | h <;> simp [h]

/-- C8 (counterexample): on the valid image that is black except for one
white pixel, the code's region contrast is (255 − 0)/255 = 1, but the
standard deviation of the region's brightness values divided by 255 is
far smaller: were contrast = stddev/255, then (255·contrast)² would
equal the brightness variance, yet (255·1)² = 65025 while the variance
is 1037799/6400 ≈ 162.16.  The code computes a brightness range, not a
standard deviation. -/
theorem C8_counterexample :
    cimg8.Valid ∧
    Heuristic.contrast cimg8 0 0 = 1 ∧
    (255 * Heuristic.contrast cimg8 0 0) ^ 2 ≠ specBrightnessVariance cimg8 0 0 := by
  refine ⟨⟨by norm_num [cimg8], by norm_num [cimg8], fun i _ => ?_⟩,
    cimg8_contrast, ?_⟩
  · show (if i < 3 then 255 else if i % 4 = 3 then 255 else 0) ≤ 255
    split_ifs <;> omega
  · rw [cimg8_contrast, cimg8_variance]
    norm_num

/-- C8 (amended): the region contrast equals the brightness *range*
(greatest minus least per-pixel brightness of the region) divided by
255: for any region whose byte sums are in range, the fold with
sentinel 255 computes the genuine least brightness and the fold with
sentinel 0 the genuine greatest, and contrast is their difference over
255 — not the standard deviation. -/
theorem C8_amended : ∀ (img : ImageData) (x y : ℕ),
    (∀ p ∈ Heuristic.regionOffsets, Heuristic.brightNat img x y p ≤ 765) →
    Heuristic.minBrightness img x y ∈ Heuristic.brightnessList img x y ∧
    (∀ b ∈ Heuristic.brightnessList img x y, Heuristic.minBrightness img x y ≤ b) ∧
    Heuristic.maxBrightness img x y ∈ Heuristic.brightnessList img x y ∧
    (∀ b ∈ Heuristic.brightnessList img x y, b ≤ Heuristic.maxBrightness img x y) ∧
    Heuristic.contrast img x y
      = (Heuristic.maxBrightness img x y - Heuristic.minBrightness img x y) / 255 := by
  intro img x y h
  have hb255 : ∀ b ∈ Heuristic.brightnessList img x y, b ≤ 255 := by
    intro b hb
    obtain ⟨p, hp, rfl⟩ := List.mem_map.mp hb
    have hc : (Heuristic.brightNat img x y p : ℚ) ≤ 765 := by
      exact_mod_cast h p hp
    linarith
  have hb0 : ∀ b ∈ Heuristic.brightnessList img x y, 0 ≤ b := by
    intro b hb
    obtain ⟨p, hp, rfl⟩ := List.mem_map.mp hb
    positivity
  have hne : (Heuristic.brightNat img x y (0, 0) : ℚ) / 3
      ∈ Heuristic.brightnessList img x y :=
    brightness_mem img x y (by decide)
  refine ⟨?_, foldl_min_le_mem _ _, ?_, foldl_max_mem_le _ _, rfl⟩
  · unfold Heuristic.minBrightness
    rcases foldl_min_mem_or (Heuristic.brightnessList img x y) 255 with hm | hm
    · exact hm
    · have h1 := foldl_min_le_mem (Heuristic.brightnessList img x y) 255 _ hne
      rw [hm] at h1
      have h2 := hb255 _ hne
      rw [hm, ← le_antisymm h2 h1]
      exact hne
  · unfold Heuristic.maxBrightness
    rcases foldl_max_mem_or (Heuristic.brightnessList img x y) 0 with hm | hm
    · exact hm
    · have h1 := foldl_max_mem_le (Heuristic.brightnessList img x y) 0 _ hne
      rw [hm] at h1
      have h2 := hb0 _ hne
      rw [hm, ← le_antisymm h1 h2]
      exact hne

/-- Witness for C8's amended claim at the one-white-pixel image. -/
theorem C8_witness :
    Heuristic.minBrightness cimg8 0 0 ∈ Heuristic.brightnessList cimg8 0 0 ∧
    Heuristic.maxBrightness cimg8 0 0 ∈ Heuristic.brightnessList cimg8 0 0 :=
  ⟨(C8_amended cimg8 0 0 (by decide)).1, (C8_amended cimg8 0 0 (by decide)).2.2.1⟩

end LuzSombra
